import Mathlib

/-!
# Verification of the multi-provider music resolution subsystem

Shallow embedding of the core of `music_api.py`, `ytdlp_provider.py` and
`platform_resolver.py`, followed by theorems settling the specification
claims about quality selection, song normalization, mirror fallback and
URL dispatch.

Python values flowing through the code are JSON-decoded data (the dicts
come from `resp.json(...)` or from the yt-dlp info dict), so they are
modelled by the `Json` inductive below.  A Python function that can raise
an exception is modelled as returning `Option` (with `none` = exception);
a function that cannot raise is modelled as a plain total function.
-/

/-- JSON-decoded Python value: `None`, `bool`, `int`, `str`, `list`, `dict`.
(Float values do not occur in any field the verified code inspects;
integers suffice for `duration`/`abr`/`status`.) -/
inductive Json where
  | null
  | bool (b : Bool)
  | num (n : Int)
  | str (s : String)
  | arr (xs : List Json)
  | obj (kvs : List (String × Json))
deriving Repr

/-- Python truthiness for JSON-decoded values: `None`, `False`, `0`, `""`,
`[]` and `\x7b\x7d` are falsy, everything else truthy. -/
def Json.truthy : Json → Bool
  | .null => false
  | .bool b => b
  | .num n => n != 0
  | .str s => !s.isEmpty
  | .arr xs => !xs.isEmpty
  | .obj kvs => !kvs.isEmpty

def Json.isNull : Json → Bool
  | .null => true
  | _ => false

def Json.isObj : Json → Bool
  | .obj _ => true
  | _ => false

/-- Python `==` on JSON-decoded values (`True == 1`, `False == 0`; a list or
dict compares unequal to every scalar, which is all the verified code ever
compares them against). -/
def Json.pyEq : Json → Json → Bool
  | .null, .null => true
  | .bool a, .bool b => a == b
  | .bool a, .num m => (if a then (1 : Int) else 0) == m
  | .num n, .bool b => n == (if b then (1 : Int) else 0)
  | .num n, .num m => n == m
  | .str a, .str b => a == b
  | _, _ => false

/-- Whether a value may be used as a Python dict key (lists and dicts are
unhashable and raise `TypeError`). -/
def Json.hashable : Json → Bool
  | .arr _ => false
  | .obj _ => false
  | _ => true

/-- Assoc-list model of a JSON-decoded Python dict (keys are strings and
unique, as produced by the json parser). -/
abbrev Dict := List (String × Json)

/-- Model of `d.get(k, default)` on a dict. -/
def pyGetD (d : Dict) (k : String) (default : Json) : Json :=
  ((d.find? (fun p => p.1 == k)).map (·.2)).getD default

/-- Model of `d.get(k)` on a dict (default `None`). -/
def pyGet (d : Dict) (k : String) : Json :=
  pyGetD d k .null

/-- Model of `j.get(k, default)` where `j` is a JSON value statically known
to be a dict at the call site. -/
def Json.getD (j : Json) (k : String) (default : Json) : Json :=
  match j with
  | .obj kvs => pyGetD kvs k default
  | _ => default

/-- Model of `j.get(k)` (default `None`). -/
def Json.get (j : Json) (k : String) : Json :=
  j.getD k .null

/-- Python truthiness-based `or` between two values: `a or b`. -/
def pyOr (a b : Json) : Json :=
  if a.truthy then a else b

/-- Model of Python `str(x)` for JSON-decoded values.  String/int/bool/None
renderings are exact; the renderings of containers are placeholders (no
verified claim inspects them — in the embedded code `str` is only applied
to the `year` and `release_year` fields). -/
def pyStr : Json → String
  | .null => "None"
  | .bool b => if b then "True" else "False"
  | .num n => toString n
  | .str s => s
  | .arr _ => "[...]"
  | .obj _ => "\x7b...\x7d"

/-- Model of Python `int(x)` on a JSON-decoded value: `none` models a raised
`TypeError`/`ValueError`.  Integer-literal string parsing is modelled by
`String.toInt?` (exotic forms such as embedded underscores or surrounding
whitespace are not modelled; no claim depends on them). -/
def pyInt : Json → Option Int
  | .num n => some n
  | .bool b => some (if b then 1 else 0)
  | .str s => s.toInt?
  | _ => none

/-- The ordered list of mirror base URLs (`MUSIC_APIS` in `music_api.py`). -/
def MUSIC_APIS : List String :=
  [ "https://jiosaavn-api2.vercel.app",
    "https://jiosaavn-api-privatecvc2.vercel.app",
    "https://saavn.dev/api",
    "https://jiosaavn-api.vercel.app" ]

/-- Known quality tiers in ascending order (`QUALITY_TIERS`). -/
def QUALITY_TIERS : List String :=
  ["12kbps", "48kbps", "96kbps", "160kbps", "320kbps"]

/-- One entry of the normalised download-URL list: the dict
`\x7b"quality": q, "url": u\x7d` built by `_extract_download_urls` (and by
`normalize_ytdlp_result`).  Both values are kept as JSON values because the
upstream data is untrusted and the code stores them unchecked. -/
structure DlEntry where
  quality : Json
  url : Json
deriving Repr

/-- Model of `list.index(x)` preceded by the `x in list` membership test:
index of the first occurrence, `none` when absent. -/
def pyIndexOf (l : List String) (q : String) : Option Nat :=
  match l with
  | [] => none
  | x :: rest => if x = q then some 0 else (pyIndexOf rest q).map (· + 1)

/-- The preference cascade built by `_pick_best_url`: the preferred label
itself, then — when the label is a known tier — every strictly lower known
tier in descending order. -/
def preferenceOrder (preferred : String) : List String :=
  match pyIndexOf QUALITY_TIERS preferred with
  | some idx => preferred :: (QUALITY_TIERS.take idx).reverse
  | none => [preferred]

/-- Lookup in the Python dict `\x7bd["quality"]: d["url"] for d in dls\x7d`:
on duplicate keys the last assignment wins, so the reversed list is searched.
Assumes all keys hashable (checked separately by the caller). -/
def pyDictLookup (dls : List DlEntry) (k : Json) : Option Json :=
  (dls.reverse.find? (fun d => d.quality.pyEq k)).map (·.url)

/-- Model of `_pick_best_url(download_urls, preferred)` (`music_api.py`,
lines 114-140).  Returns `none` when the Python code raises `TypeError`
(an unhashable quality value reaching the dict comprehension), otherwise
`some` of the returned value.  The dict comprehension runs after the
empty-list early return, hence the order of the first two branches. -/
def _pick_best_url (download_urls : List DlEntry) (preferred : String) : Option Json :=
  if download_urls.isEmpty then some (.str "") else
  if !download_urls.all (fun d => d.quality.hashable) then none else
  match (preferenceOrder preferred).findSome? (fun q => pyDictLookup download_urls (.str q)) with
  | some u => some u
  | none =>
    match QUALITY_TIERS.reverse.findSome? (fun q => pyDictLookup download_urls (.str q)) with
    | some u => some u
    | none =>
      match download_urls.getLast? with
      | some d => some d.url
      | none => some (.str "")

/-- Model of `_safe_unescape(text)`.  The behaviour of the standard-library
`html.unescape` (a pure total function on strings) is abstracted as the
parameter `unescape`, threaded through every definition that needs it. -/
def _safe_unescape (unescape : String → String) (t : Json) : String :=
  if !t.truthy then ""
  else match t with
    | .str s => unescape s
    | _ => pyStr t

/-- Model of `_extract_url(entry)`: `entry.get("url") or entry.get("link") or ""`. -/
def _extract_url (entry : Json) : Json :=
  pyOr (entry.get "url") (pyOr (entry.get "link") (.str ""))

/-- Model of `", ".join(n for n in names if n)`: the falsy elements are
filtered out and the remaining ones joined; a truthy non-string element
makes `str.join` raise `TypeError`, modelled as `none`. -/
def joinNames (names : List Json) : Option String :=
  let kept := names.filter Json.truthy
  if kept.all (fun j => match j with | .str _ => true | _ => false) then
    some (String.intercalate ", " (kept.map (fun j => match j with | .str s => s | _ => "")))
  else none

/-- The dict elements of a list, each reduced to its `name` field with
default `""` — `[a.get("name", "") for a in l if isinstance(a, dict)]`. -/
def namesOf (l : List Json) : List Json :=
  l.filterMap (fun a => match a with
    | .obj _ => some (a.getD "name" (.str ""))
    | _ => none)

/-- Model of `_extract_artist(song)` (`music_api.py`, lines 50-76).
`none` models the `TypeError` raised by `", ".join` when a truthy
non-string name is joined; otherwise `some` of the artist string. -/
def _extract_artist (unescape : String → String) (song : Dict) : Option String :=
  let pa := pyGet song "primaryArtists"
  let fallback : Option String :=
    let a := pyGet song "artist"
    if a.truthy then some (_safe_unescape unescape a)
    else some "Unknown"
  let afterPA : Option String :=
    let artists_obj := pyGet song "artists"
    match artists_obj with
    | .obj _ =>
      match artists_obj.get "primary" with
      | .arr (p :: ps) =>
        match joinNames (namesOf (p :: ps)) with
        | none => none
        | some joined =>
          if joined ≠ "" then some (_safe_unescape unescape (.str joined))
          else fallback
      | _ => fallback
    | _ => fallback
  match pa with
  | .str s =>
    if s ≠ "" then some (_safe_unescape unescape (.str s))
    else afterPA
  | .arr xs =>
    match namesOf xs with
    | [] => afterPA
    | n :: ns =>
      match joinNames (n :: ns) with
      | none => none
      | some joined => some (_safe_unescape unescape (.str joined))
  | _ => afterPA

/-- Model of `_extract_image(song)` (`music_api.py`, lines 79-94). -/
def _extract_image (song : Dict) : Json :=
  match pyGet song "image" with
  | .arr (i :: is) =>
    match (i :: is).find? (fun img => img.isObj && (img.get "quality").pyEq (.str "500x500")) with
    | some img => _extract_url img
    | none =>
      match (i :: is).getLast? with
      | some (.obj kvs) => _extract_url (.obj kvs)
      | _ => .str ""
  | _ => .str ""

/-- Model of `_extract_download_urls(song)` (`music_api.py`, lines 97-111):
keep only dict entries whose `quality` and url are both truthy. -/
def _extract_download_urls (song : Dict) : List DlEntry :=
  match pyOr (pyGet song "downloadUrl") (pyOr (pyGet song "download_url") (.arr [])) with
  | .arr xs =>
    xs.filterMap (fun e => match e with
      | .obj _ =>
        let quality := e.getD "quality" (.str "")
        let url := _extract_url e
        if quality.truthy && url.truthy then some ⟨quality, url⟩ else none
      | _ => none)
  | _ => []

/-- Model of `_format_duration(seconds)` applied to an already-converted
integer (as `normalize_song` does): `M:SS` with Python floor division and
nonnegative remainder. -/
def _format_duration (total : Int) : String :=
  let minutes := Int.fdiv total 60
  let secs := Int.emod total 60
  toString minutes ++ ":" ++ (if secs < 10 then "0" ++ toString secs else toString secs)

/-- The canonical song dict produced by `normalize_song` and
`normalize_ytdlp_result`.  Fields the code stores unprocessed keep type
`Json`; fields it always converts are typed accordingly.  `source` and
`webpage_url` are `Option` because the primary-provider normaliser does not
put those keys in the dict at all (`none` models key absence). -/
structure Song where
  id : Json
  name : Json
  artist : Json
  album : Json
  year : String
  duration : Int
  duration_formatted : String
  language : Json
  has_lyrics : Bool
  image : Json
  download_urls : List DlEntry
  best_url : Json
  source : Option String
  webpage_url : Option Json
deriving Repr

/-- Model of `normalize_song(song)` (`music_api.py`, lines 162-191).
`none` models an escaped exception (possible via `_extract_artist` and via
`_pick_best_url`, see those definitions); every other step is total.
`int(duration_raw)` is wrapped in `try/except` in the source, hence the
`getD 0`. -/
def normalize_song (unescape : String → String) (song : Dict) : Option Song :=
  let download_urls := _extract_download_urls song
  let album_obj := pyGet song "album"
  let album_name : Json :=
    match album_obj with
    | .obj _ => album_obj.getD "name" (.str "")
    | .str s => .str s
    | _ => .str ""
  let duration_sec : Int := (pyInt (pyGetD song "duration" (.num 0))).getD 0
  match _extract_artist unescape song with
  | none => none
  | some artist =>
    match _pick_best_url download_urls "320kbps" with
    | none => none
    | some best =>
      some
        { id := pyGetD song "id" (.str "")
          name := .str (_safe_unescape unescape (pyGetD song "name" (.str "Unknown")))
          artist := .str artist
          album := .str (_safe_unescape unescape album_name)
          year := if (pyGet song "year").isNull then "" else pyStr (pyGet song "year")
          duration := duration_sec
          duration_formatted := _format_duration duration_sec
          language := pyGetD song "language" (.str "")
          has_lyrics := (pyGet song "hasLyrics").truthy
          image := _extract_image song
          download_urls := download_urls
          best_url := best
          source := none
          webpage_url := none }

/-- Model of `normalize_songs(songs)`: normalise every dict element,
skipping non-dicts; an exception in any element escapes (`none`). -/
def normalize_songs (unescape : String → String) : List Json → Option (List Song)
  | [] => some []
  | x :: rest =>
    match x with
    | .obj kvs =>
      match normalize_song unescape kvs with
      | none => none
      | some s =>
        match normalize_songs unescape rest with
        | none => none
        | some r => some (s :: r)
    | _ => normalize_songs unescape rest

/-- Loop body of `_extract_audio_url`: scan `requested_formats` for an
audio-only stream.  A non-dict element reaching `fmt.get` raises
(`none`). -/
def _audio_loop (fmts : List Json) (url : Json) : Option Json :=
  match fmts with
  | [] => some url
  | f :: rest =>
    match f with
    | .obj _ =>
      if !((f.get "acodec").pyEq (.str "none")) &&
         ((f.get "vcodec").pyEq (.str "none") || (f.get "vcodec").isNull) then
        some (f.getD "url" url)
      else _audio_loop rest url
    | _ => none

/-- Model of `_extract_audio_url(info)` (`ytdlp_provider.py`, lines 61-72).
`info.get("requested_formats", [])` defaults to `[]` only when the key is
absent; a present non-list value is iterated by the `for` loop: an empty
string or empty dict iterates zero times, any other non-list raises. -/
def _extract_audio_url (info : Dict) : Option Json :=
  let url := pyGetD info "url" (.str "")
  match (info.find? (fun p => p.1 == "requested_formats")).map (·.2) with
  | none => some url
  | some rf =>
    match rf with
    | .arr fmts => _audio_loop fmts url
    | .str "" => some url
    | .obj [] => some url
    | _ => none

/-- The thumbnail computation of `normalize_ytdlp_result` (lines 96-100):
`info.get("thumbnail") or ""`, replaced by `thumbnails[-1].get("url", ...)`
when `info.get("thumbnails") or []` is truthy.  Indexing a truthy non-list
with `[-1]`, or calling `.get` on a non-dict last element, raises. -/
def _ytdlp_thumbnail (info : Dict) : Option Json :=
  let thumbnail := pyOr (pyGet info "thumbnail") (.str "")
  let thumbnails := pyOr (pyGet info "thumbnails") (.arr [])
  if thumbnails.truthy then
    match thumbnails with
    | .arr (t :: ts) =>
      match (t :: ts).getLast? with
      | some (.obj kvs) => some ((Json.obj kvs).getD "url" thumbnail)
      | _ => none
    | _ => none
  else some thumbnail

/-- Model of `normalize_ytdlp_result(info, source)` (`ytdlp_provider.py`,
lines 75-130).  `none` models an escaped exception: `int(...)` on the
`duration`/`abr` fields, the thumbnail indexing, or `_extract_audio_url`.
The `Option` binds follow the evaluation order of the source. -/
def normalize_ytdlp_result (info : Dict) (source : String) : Option Song :=
  let title := pyOr (pyGet info "track") (pyOr (pyGet info "title") (.str "Unknown"))
  let artist := pyOr (pyGet info "artist")
    (pyOr (pyGet info "uploader") (pyOr (pyGet info "channel") (.str "Unknown")))
  let album := pyOr (pyGet info "album") (.str "")
  match pyInt (pyOr (pyGet info "duration") (.num 0)) with
  | none => none
  | some duration =>
    match _ytdlp_thumbnail info with
    | none => none
    | some thumbnail =>
      match _extract_audio_url info with
      | none => none
      | some audio_url =>
        match pyInt (pyOr (pyGet info "abr") (.num 0)) with
        | none => none
        | some abr =>
          let download_urls : List DlEntry :=
            if audio_url.truthy then
              [⟨.str (if abr != 0 then toString abr ++ "kbps" else "320kbps"), audio_url⟩]
            else []
          let webpage_url := pyOr (pyGet info "webpage_url") (pyOr (pyGet info "original_url") (.str ""))
          some
            { id := pyOr (pyGet info "id") (.str "")
              name := title
              artist := artist
              album := album
              year := pyStr (pyOr (pyGet info "release_year") (.str ""))
              duration := duration
              duration_formatted :=
                if duration != 0 then
                  toString (Int.fdiv duration 60) ++ ":" ++
                    (if Int.emod duration 60 < 10 then "0" ++ toString (Int.emod duration 60)
                     else toString (Int.emod duration 60))
                else "0:00"
              language := .str ""
              has_lyrics := false
              image := thumbnail
              download_urls := download_urls
              best_url := audio_url
              source := some source
              webpage_url := some webpage_url }

/-- Model of `refresh_song(song)` (`ytdlp_provider.py`, lines 234-249).
The upstream work (`extract_stream_url`, i.e. the yt-dlp re-extraction
plus renormalisation) is abstracted as the oracle `extract`; the second
component counts how many times the oracle was consulted.  A `webpage_url`
key that is absent (`none`) or falsy short-circuits before any upstream
call; the re-extracted URLs are written back only when the oracle returns
a song with a truthy `best_url`. -/
def refresh_song (extract : Json → Option Song) (song : Song) : Song × Nat :=
  match song.webpage_url with
  | none => (song, 0)
  | some w =>
    if !w.truthy then (song, 0)
    else
      match extract w with
      | some refreshed =>
        if refreshed.best_url.truthy then
          ({ song with best_url := refreshed.best_url,
                       download_urls := refreshed.download_urls }, 1)
        else (song, 1)
      | none => (song, 1)

/-- Outcome of the HTTP GET a mirror answers with: a timeout
(`asyncio.TimeoutError`), any other exception (transport error, JSON decode
failure, ...), or a response with a status code and JSON-decoded body. -/
inductive MirrorOutcome where
  | timeout
  | exn
  | response (status : Int) (body : Json)
deriving Repr

/-- The nested-envelope unwrapping of `MusicAPI.search` (lines 227-241):
try `data.data.results`, then `data.data.data.results`, then
`data.results`; `Json.null` plays the role of the Python `None`
sentinel exactly as in the source. -/
def unwrapSearchResults (data : Json) : Json :=
  match data with
  | .obj _ =>
    let inner := data.get "data"
    let r1 : Json :=
      match inner with
      | .obj _ =>
        let r := inner.get "results"
        if r.isNull then
          match inner.get "data" with
          | .obj kvs2 => (Json.obj kvs2).get "results"
          | _ => .null
        else r
      | _ => .null
    if r1.isNull then data.get "results" else r1
  | _ => .null

/-- Processing of a single mirror during `MusicAPI.search`: `none` means the
mirror is skipped (timeout, exception, non-200 status, unusable envelope,
empty result list, or an empty/raising normalisation), `some` is the
non-empty normalised list returned immediately. -/
def tryMirror (unescape : String → String) (m : MirrorOutcome) : Option (List Song) :=
  match m with
  | .timeout => none
  | .exn => none
  | .response status body =>
    if status != 200 then none
    else
      match unwrapSearchResults body with
      | .arr (x :: xs) =>
        match normalize_songs unescape (x :: xs) with
        | none => none
        | some normalised => if normalised.isEmpty then none else some normalised
      | _ => none

/-- Model of `MusicAPI.search(query, limit)` (`music_api.py`, lines
207-258): iterate the mirror outcomes in order, return the first success,
`none` (the Python `None`) when every mirror fails or yields nothing.  The
query string only affects the request URL, never the control flow, so it
does not appear; `outcomes` lists what each configured mirror answers, in
mirror order. -/
def MusicAPI.search (unescape : String → String) : List MirrorOutcome → Option (List Song)
  | [] => none
  | m :: rest =>
    match tryMirror unescape m with
    | some r => some r
    | none => MusicAPI.search unescape rest

/-- The envelope unwrapping of `MusicAPI.get_song_by_id` (lines 280-296),
returning the `song_data` candidate or `Json.null` for the `None`
sentinel. -/
def unwrapSongData (data : Json) : Json :=
  match data with
  | .obj _ =>
    let inner := data.get "data"
    match inner with
    | .arr (x :: _) => x
    | .obj _ =>
      if (inner.get "id").truthy then inner
      else
        let results := pyOr (inner.get "results") (inner.get "data")
        match results with
        | .arr (x :: _) => x
        | .obj _ => if (results.get "id").truthy then results else .null
        | _ => .null
    | _ => if (data.get "id").truthy then data else .null
  | _ => .null

/-- Processing of a single mirror during `get_song_by_id`: succeeds only
when the unwrapped candidate is a truthy dict whose normalisation neither
raises nor produces a falsy `id`. -/
def tryMirrorSong (unescape : String → String) (m : MirrorOutcome) : Option Song :=
  match m with
  | .timeout => none
  | .exn => none
  | .response status body =>
    if status != 200 then none
    else
      match unwrapSongData body with
      | .obj (kv :: kvs) =>
        match normalize_song unescape (kv :: kvs) with
        | none => none
        | some s => if s.id.truthy then some s else none
      | _ => none

/-- Model of `MusicAPI.get_song_by_id(song_id)` (`music_api.py`, lines
262-310): same mirror iteration and failure tolerance as `search`. -/
def MusicAPI.get_song_by_id (unescape : String → String) : List MirrorOutcome → Option Song
  | [] => none
  | m :: rest =>
    match tryMirrorSong unescape m with
    | some s => some s
    | none => MusicAPI.get_song_by_id unescape rest

/-- Model of `MusicAPI.ensure_download_urls(song)` (`music_api.py`, lines
314-332).  The upstream `get_song_by_id` is abstracted as the oracle
`fetch` (applied to the `id` field); the second component counts the
upstream calls. -/
def MusicAPI.ensure_download_urls (fetch : Json → Option Song) (song : Song) : Song × Nat :=
  if !song.download_urls.isEmpty && song.best_url.truthy then (song, 0)
  else if !song.id.truthy then (song, 0)
  else
    match fetch song.id with
    | some full =>
      if !full.download_urls.isEmpty then
        ({ song with download_urls := full.download_urls,
                     best_url := full.best_url }, 1)
      else (song, 1)
    | none => (song, 1)

/-- The four provider-specific resolution branches of `resolve_url`
(`platform_resolver.py`). -/
inductive MusicBranch where
  | spotify
  | deezer
  | appleAlbum
  | appleSong
deriving Repr, DecidableEq

/-- Model of `is_music_url(text)` (`platform_resolver.py`, lines 37-45).
The compiled regular expressions `SPOTIFY_PATTERN`, `DEEZER_PATTERN`,
`APPLE_MUSIC_PATTERN` and `APPLE_MUSIC_SONG_PATTERN` are abstracted as the
Boolean search functions `sp`, `de`, `aa`, `asg` — both `is_music_url` and
`resolve_url` apply exactly the same four compiled patterns via
`.search`, so every theorem below holds for all of them.  `str.strip()`
is modelled by `String.trim`. -/
def is_music_url (sp de aa asg : String → Bool) (text : String) : Bool :=
  let t := text.trim
  sp t || de t || aa t || asg t

/-- The dispatch skeleton of `resolve_url` (`platform_resolver.py`, lines
48-84): which provider-specific branch the stripped URL reaches, `none`
when the function falls through to `return None` at line 84 without
touching any provider logic.  The patterns are tried in source order:
Spotify, Deezer, Apple-Music album, Apple-Music song. -/
def resolve_branch (sp de aa asg : String → Bool) (url : String) : Option MusicBranch :=
  let u := url.trim
  if sp u then some .spotify
  else if de u then some .deezer
  else if aa u then some .appleAlbum
  else if asg u then some .appleSong
  else none

/-- Model of `resolve_url(url, session)`: dispatch per `resolve_branch`,
with the body of each branch (network resolution or slug transform)
abstracted as an oracle from the stripped URL to the optional query
string. -/
def resolve_url (sp de aa asg : String → Bool)
    (spR deR aaR asgR : String → Option String) (url : String) : Option String :=
  match resolve_branch sp de aa asg url with
  | some .spotify => spR url.trim
  | some .deezer => deR url.trim
  | some .appleAlbum => aaR url.trim
  | some .appleSong => asgR url.trim
  | none => none

/-! ## Statement-level helpers

The claims about `_pick_best_url` speak of lists of string
`(quality, url)` pairs; these helpers express tier comparison and
Python-dict lookup at the string level for use in theorem statements. -/

/-- Embed a string `(quality, url)` pair as the download-URL dict entry. -/
def sentry (p : String × String) : DlEntry :=
  ⟨.str p.1, .str p.2⟩

/-- Whether the label `q` occurs as a quality in the list. -/
def keyPresent (l : List (String × String)) (q : String) : Bool :=
  l.any (fun p => p.1 == q)

/-- URL stored under label `q` by the Python dict comprehension
(last occurrence wins), `none` when the label is absent. -/
def lookupLast (l : List (String × String)) (q : String) : Option String :=
  (l.reverse.find? (fun p => p.1 == q)).map (·.2)

/-- Position of a label in the known-tier order, `none` for unknown
labels. -/
def tierIdx (q : String) : Option Nat :=
  if q = "12kbps" then some 0
  else if q = "48kbps" then some 1
  else if q = "96kbps" then some 2
  else if q = "160kbps" then some 3
  else if q = "320kbps" then some 4
  else none

/-- `t` and `p` are both known tiers and `t` is less than or equal to `p`
in the tier order. -/
def tierLE (t p : String) : Bool :=
  match tierIdx t, tierIdx p with
  | some i, some j => i ≤ j
  | _, _ => false

/-- Some known tier less than or equal to `p` occurs in the list. -/
def hasKnownLE (l : List (String × String)) (p : String) : Bool :=
  QUALITY_TIERS.any (fun t => tierLE t p && keyPresent l t)

/-! ## Concrete records used by the witnesses -/

/-- The spec scenario input: a record carrying a 96kbps and a 320kbps
download URL. -/
def dW : Dict :=
  [("downloadUrl", .arr [ .obj [("quality", .str "96kbps"), ("url", .str "a")],
                          .obj [("quality", .str "320kbps"), ("url", .str "b")]])]

/-- The canonical song `normalize_song` produces from `dW`. -/
def songW : Song :=
  { id := .str "", name := .str "Unknown", artist := .str "Unknown", album := .str ""
    year := "", duration := 0, duration_formatted := "0:00", language := .str ""
    has_lyrics := false, image := .str ""
    download_urls := [⟨.str "96kbps", .str "a"⟩, ⟨.str "320kbps", .str "b"⟩]
    best_url := .str "b", source := none, webpage_url := none }

/-- A yt-dlp info record with a direct audio URL and a 128kbps bitrate. -/
def infoW : Dict := [("url", .str "http://a"), ("abr", .num 128)]

/-- The canonical song `normalize_ytdlp_result` produces from `infoW`. -/
def songYW : Song :=
  { id := .str "", name := .str "Unknown", artist := .str "Unknown", album := .str ""
    year := "", duration := 0, duration_formatted := "0:00", language := .str ""
    has_lyrics := false, image := .str ""
    download_urls := [⟨.str "128kbps", .str "http://a"⟩]
    best_url := .str "http://a", source := some "youtube", webpage_url := some (.str "") }

/-- A mirror body wrapping a song record with id "x" under the `data` key. -/
def outW : MirrorOutcome := .response 200 (.obj [("data", .obj [("id", .str "x")])])

/-- The canonical song `get_song_by_id` produces from `outW`. -/
def songXW : Song :=
  { id := .str "x", name := .str "Unknown", artist := .str "Unknown", album := .str ""
    year := "", duration := 0, duration_formatted := "0:00", language := .str ""
    has_lyrics := false, image := .str ""
    download_urls := [], best_url := .str "", source := none, webpage_url := none }

/-- A song lacking download URLs (empty list, empty best_url) with id "i". -/
def songEW : Song :=
  { id := .str "i", name := .str "t", artist := .str "a", album := .str ""
    year := "", duration := 0, duration_formatted := "0:00", language := .str ""
    has_lyrics := false, image := .str ""
    download_urls := [], best_url := .str "", source := none, webpage_url := none }

/-- The fully-populated song an id-fetch returns for `songEW`. -/
def fullW : Song :=
  { id := .str "i", name := .str "t", artist := .str "a", album := .str ""
    year := "", duration := 0, duration_formatted := "0:00", language := .str ""
    has_lyrics := false, image := .str ""
    download_urls := [⟨.str "320kbps", .str "u"⟩], best_url := .str "u"
    source := none, webpage_url := none }

/-- A secondary-provider song with a permanent page URL. -/
def songPW : Song :=
  { id := .str "y", name := .str "t", artist := .str "a", album := .str ""
    year := "", duration := 0, duration_formatted := "0:00", language := .str ""
    has_lyrics := false, image := .str ""
    download_urls := [⟨.str "320kbps", .str "old"⟩], best_url := .str "old"
    source := some "youtube", webpage_url := some (.str "https://yt/x") }

/-- The re-extracted song carrying fresh URLs. -/
def refreshedW : Song :=
  { id := .str "y", name := .str "t", artist := .str "a", album := .str ""
    year := "", duration := 0, duration_formatted := "0:00", language := .str ""
    has_lyrics := false, image := .str ""
    download_urls := [⟨.str "128kbps", .str "new"⟩], best_url := .str "new"
    source := some "youtube", webpage_url := some (.str "https://yt/x") }

/-! ## List and lookup lemmas -/

theorem findSome?_eq_some_ex {α β} {f : α → Option β} {l : List α} {b : β}
    (h : l.findSome? f = some b) : ∃ a ∈ l, f a = some b := by
  induction l with
  | nil => simp [List.findSome?_nil] at h
  | cons x xs ih =>
    rw [List.findSome?_cons] at h
    split at h
    · next v hv => exact ⟨x, List.mem_cons_self x xs, by rw [hv]; exact congrArg some (Option.some.inj h)⟩
    · obtain ⟨a, ha, hfa⟩ := ih h
      exact ⟨a, List.mem_cons_of_mem x ha, hfa⟩

theorem findSome?_eq_none_of {α β} {f : α → Option β} {l : List α}
    (h : ∀ a ∈ l, f a = none) : l.findSome? f = none := by
  induction l with
  | nil => simp [List.findSome?_nil]
  | cons x xs ih =>
    rw [List.findSome?_cons, h x (List.mem_cons_self x xs)]
    exact ih (fun a ha => h a (List.mem_cons_of_mem x ha))

theorem findSome?_cons_of_some {α β} {f : α → Option β} {x : α} {xs : List α} {b : β}
    (h : f x = some b) : (x :: xs).findSome? f = some b := by
  rw [List.findSome?_cons, h]

theorem findSome?_eq_bind_find? {α β} (f : α → Option β) (l : List α) :
    l.findSome? f = (l.find? (fun a => (f a).isSome)).bind f := by
  induction l with
  | nil => simp [List.findSome?_nil]
  | cons x xs ih =>
    cases hx : f x with
    | some v => simp [List.findSome?_cons, List.find?_cons, hx]
    | none => simp [List.findSome?_cons, List.find?_cons, hx, ih]

theorem mem_of_getLast?_eq_some {α} {l : List α} {a : α}
    (h : l.getLast? = some a) : a ∈ l := by
  cases l with
  | nil => simp at h
  | cons x xs =>
    rw [List.getLast?_eq_getLast (x :: xs) (List.cons_ne_nil x xs)] at h
    exact Option.some.inj h ▸ List.getLast_mem (List.cons_ne_nil x xs)

theorem find?_sentry (l : List (String × String)) (q : String) :
    (l.map sentry).find? (fun d => d.quality.pyEq (.str q)) =
      (l.find? (fun p => p.1 == q)).map sentry := by
  rw [List.find?_map]
  rfl

theorem pyDictLookup_sentry (l : List (String × String)) (q : String) :
    pyDictLookup (l.map sentry) (.str q) = (lookupLast l q).map Json.str := by
  unfold pyDictLookup lookupLast
  rw [← List.map_reverse, find?_sentry]
  cases l.reverse.find? (fun p => p.1 == q) <;> rfl

theorem lookupLast_isSome (l : List (String × String)) (q : String) :
    (lookupLast l q).isSome = keyPresent l q := by
  unfold lookupLast keyPresent
  cases hf : l.reverse.find? (fun p => p.1 == q) with
  | none =>
    rw [List.find?_eq_none] at hf
    have : l.any (fun p => p.1 == q) = false := by
      rw [List.any_eq_false]
      exact fun p hp => hf p (List.mem_reverse.mpr hp)
    simp [this]
  | some p =>
    have h1 := List.find?_some hf
    have h2 : p ∈ l := List.mem_reverse.mp (List.mem_of_find?_eq_some hf)
    have h3 : l.any (fun x => x.1 == q) = true := List.any_eq_true.mpr ⟨p, h2, h1⟩
    simp [h3]

theorem lookupLast_eq_none {l : List (String × String)} {q : String}
    (h : keyPresent l q = false) : lookupLast l q = none := by
  have := lookupLast_isSome l q
  rw [h] at this
  exact Option.not_isSome_iff_eq_none.mp (by simp [this])

theorem lookupLast_mem {l : List (String × String)} {q : String} {u : String}
    (h : lookupLast l q = some u) : ∃ p ∈ l, p.1 = q ∧ p.2 = u := by
  unfold lookupLast at h
  cases hf : l.reverse.find? (fun p => p.1 == q) with
  | none => rw [hf] at h; simp at h
  | some p =>
    rw [hf] at h
    refine ⟨p, List.mem_reverse.mp (List.mem_of_find?_eq_some hf), ?_, ?_⟩
    · have h3 := List.find?_some hf
      simpa using h3
    · exact Option.some.inj h

/-! ## Tier-order lemmas -/

theorem tierIdx_cases {t : String} {i : Nat} (h : tierIdx t = some i) :
    (t = "12kbps" ∧ i = 0) ∨ (t = "48kbps" ∧ i = 1) ∨ (t = "96kbps" ∧ i = 2) ∨
    (t = "160kbps" ∧ i = 3) ∨ (t = "320kbps" ∧ i = 4) := by
  unfold tierIdx at h
  split_ifs at h <;> simp_all

theorem pyIndexOf_tiers (q : String) : pyIndexOf QUALITY_TIERS q = tierIdx q := by
  by_cases h1 : q = "12kbps"
  · subst h1; decide
  by_cases h2 : q = "48kbps"
  · subst h2; decide
  by_cases h3 : q = "96kbps"
  · subst h3; decide
  by_cases h4 : q = "160kbps"
  · subst h4; decide
  by_cases h5 : q = "320kbps"
  · subst h5; decide
  have e1 : ¬("12kbps" = q) := fun h => h1 h.symm
  have e2 : ¬("48kbps" = q) := fun h => h2 h.symm
  have e3 : ¬("96kbps" = q) := fun h => h3 h.symm
  have e4 : ¬("160kbps" = q) := fun h => h4 h.symm
  have e5 : ¬("320kbps" = q) := fun h => h5 h.symm
  simp [QUALITY_TIERS, pyIndexOf, tierIdx, e1, e2, e3, e4, e5, h1, h2, h3, h4, h5]

theorem mem_preferenceOrder_of_le {t p : String} (h : tierLE t p = true) :
    t ∈ preferenceOrder p := by
  unfold tierLE at h
  cases hi : tierIdx t with
  | none => rw [hi] at h; simp at h
  | some i =>
    cases hj : tierIdx p with
    | none => rw [hi, hj] at h; simp at h
    | some j =>
      rw [hi, hj] at h
      have hij : i ≤ j := by simpa using h
      unfold preferenceOrder
      rw [pyIndexOf_tiers, hj]
      rcases tierIdx_cases hi with ⟨rfl, rfl⟩ | ⟨rfl, rfl⟩ | ⟨rfl, rfl⟩ | ⟨rfl, rfl⟩ | ⟨rfl, rfl⟩ <;>
        rcases tierIdx_cases hj with ⟨rfl, rfl⟩ | ⟨rfl, rfl⟩ | ⟨rfl, rfl⟩ | ⟨rfl, rfl⟩ | ⟨rfl, rfl⟩ <;>
        first
          | exact absurd hij (by decide)
          | decide

theorem tail_mem_tier {p q : String} {idx : Nat} (hp : tierIdx p = some idx)
    (hq : q ∈ (QUALITY_TIERS.take idx).reverse) :
    q ∈ QUALITY_TIERS ∧ tierLE q p = true := by
  rw [List.mem_reverse] at hq
  rcases tierIdx_cases hp with ⟨rfl, rfl⟩ | ⟨rfl, rfl⟩ | ⟨rfl, rfl⟩ | ⟨rfl, rfl⟩ | ⟨rfl, rfl⟩
  · simp [QUALITY_TIERS] at hq
  · simp [QUALITY_TIERS] at hq
    subst hq
    exact ⟨by decide, by decide⟩
  · simp [QUALITY_TIERS] at hq
    rcases hq with rfl | rfl <;> exact ⟨by decide, by decide⟩
  · simp [QUALITY_TIERS] at hq
    rcases hq with rfl | rfl | rfl <;> exact ⟨by decide, by decide⟩
  · simp [QUALITY_TIERS] at hq
    rcases hq with rfl | rfl | rfl | rfl <;> exact ⟨by decide, by decide⟩

/-! ## Quality-selector lemmas -/

theorem sentry_all_hashable (l : List (String × String)) :
    (l.map sentry).all (fun d => d.quality.hashable) = true := by
  rw [List.all_eq_true]
  intro d hd
  obtain ⟨p, _, rfl⟩ := List.mem_map.mp hd
  rfl

theorem keyPresent_ne_nil {l : List (String × String)} {q : String}
    (h : keyPresent l q = true) : l ≠ [] := by
  intro he
  subst he
  simp [keyPresent] at h

theorem keyPresent_false_of_hasKnownLE {l : List (String × String)} {p t : String}
    (hk : hasKnownLE l p = false) (ht : t ∈ QUALITY_TIERS) (hle : tierLE t p = true) :
    keyPresent l t = false := by
  unfold hasKnownLE at hk
  rw [List.any_eq_false] at hk
  have := hk t ht
  simp [hle] at this
  exact this

theorem chain_lookup_none {l : List (String × String)} {p : String}
    (hp : keyPresent l p = false) (hk : hasKnownLE l p = false) :
    ∀ q ∈ preferenceOrder p, pyDictLookup (l.map sentry) (.str q) = none := by
  intro q hq
  rw [pyDictLookup_sentry]
  unfold preferenceOrder at hq
  rw [pyIndexOf_tiers] at hq
  have hqnone : keyPresent l q = false := by
    cases hidx : tierIdx p with
    | none =>
      rw [hidx] at hq
      simp at hq
      subst hq
      exact hp
    | some idx =>
      rw [hidx] at hq
      rcases List.mem_cons.mp hq with rfl | htail
      · exact hp
      · obtain ⟨hmem, hle⟩ := tail_mem_tier hidx htail
        exact keyPresent_false_of_hasKnownLE hk hmem hle
  rw [lookupLast_eq_none hqnone]
  rfl

theorem scan_eq_find? (l : List (String × String)) :
    QUALITY_TIERS.reverse.findSome? (fun q => pyDictLookup (l.map sentry) (.str q)) =
      (QUALITY_TIERS.reverse.find? (fun t => keyPresent l t)).bind
        (fun t => (lookupLast l t).map Json.str) := by
  have hfn : (fun q => pyDictLookup (l.map sentry) (.str q)) =
      (fun q => (lookupLast l q).map Json.str) := funext (fun q => pyDictLookup_sentry l q)
  rw [hfn, findSome?_eq_bind_find?]
  have hpred : (fun a => ((lookupLast l a).map Json.str).isSome) = (fun t => keyPresent l t) := by
    funext a
    rw [← lookupLast_isSome l a]
    cases lookupLast l a <;> rfl
  rw [hpred]

theorem pyDictLookup_mem {dls : List DlEntry} {k : Json} {v : Json}
    (h : pyDictLookup dls k = some v) : ∃ d ∈ dls, v = d.url := by
  unfold pyDictLookup at h
  cases hf : dls.reverse.find? (fun d => d.quality.pyEq k) with
  | none => rw [hf] at h; simp at h
  | some d =>
    rw [hf] at h
    exact ⟨d, List.mem_reverse.mp (List.mem_of_find?_eq_some hf), (Option.some.inj h).symm⟩

theorem pick_mem {dls : List DlEntry} {p : String} {v : Json}
    (h : _pick_best_url dls p = some v) (hne : dls ≠ []) : ∃ d ∈ dls, v = d.url := by
  unfold _pick_best_url at h
  rw [if_neg (by simp [List.isEmpty_iff, hne])] at h
  by_cases hh : dls.all (fun d => d.quality.hashable) = true
  · rw [if_neg (by simp [hh])] at h
    cases hc : (preferenceOrder p).findSome? (fun q => pyDictLookup dls (.str q)) with
    | some u =>
      rw [hc] at h
      obtain ⟨q, _, hlk⟩ := findSome?_eq_some_ex hc
      exact (Option.some.inj h) ▸ pyDictLookup_mem hlk
    | none =>
      rw [hc] at h
      cases hs : QUALITY_TIERS.reverse.findSome? (fun q => pyDictLookup dls (.str q)) with
      | some u =>
        rw [hs] at h
        obtain ⟨q, _, hlk⟩ := findSome?_eq_some_ex hs
        exact (Option.some.inj h) ▸ pyDictLookup_mem hlk
      | none =>
        rw [hs] at h
        cases hg : dls.getLast? with
        | none => rw [List.getLast?_eq_none_iff] at hg; exact absurd hg hne
        | some d =>
          rw [hg] at h
          exact ⟨d, mem_of_getLast?_eq_some hg, (Option.some.inj h).symm⟩
  · rw [if_pos (by simp [hh])] at h
    exact absurd h (by simp)

theorem pick_isSome (dls : List DlEntry) (p : String) :
    (_pick_best_url dls p).isSome = dls.all (fun d => d.quality.hashable) := by
  unfold _pick_best_url
  by_cases he : dls.isEmpty
  · rw [if_pos he]
    rw [List.isEmpty_iff] at he
    subst he
    rfl
  · rw [if_neg he]
    by_cases hh : dls.all (fun d => d.quality.hashable) = true
    · rw [if_neg (by simp [hh]), hh]
      cases (preferenceOrder p).findSome? (fun q => pyDictLookup dls (.str q)) with
      | some u => rfl
      | none =>
        cases QUALITY_TIERS.reverse.findSome? (fun q => pyDictLookup dls (.str q)) with
        | some u => rfl
        | none =>
          cases dls.getLast? with
          | some d => rfl
          | none => rfl
    · have hh2 : dls.all (fun d => d.quality.hashable) = false := by
        simpa [Bool.not_eq_true] using hh
      rw [hh2, if_pos (by simp [hh2])]
      rfl

theorem preferenceOrder_head (p : String) :
    ∃ tail, preferenceOrder p = p :: tail := by
  unfold preferenceOrder
  cases pyIndexOf QUALITY_TIERS p with
  | none => exact ⟨[], rfl⟩
  | some idx => exact ⟨(QUALITY_TIERS.take idx).reverse, rfl⟩

theorem pick_singleton (d : DlEntry) (p : String) (hd : d.quality.hashable = true) :
    _pick_best_url [d] p = some d.url := by
  unfold _pick_best_url
  rw [if_neg (by simp), if_neg (by simp [hd])]
  cases hc : (preferenceOrder p).findSome? (fun q => pyDictLookup [d] (.str q)) with
  | some u =>
    obtain ⟨q, _, hlk⟩ := findSome?_eq_some_ex hc
    obtain ⟨e, he, rfl⟩ := pyDictLookup_mem hlk
    simp at he
    subst he
    rfl
  | none =>
    cases hs : QUALITY_TIERS.reverse.findSome? (fun q => pyDictLookup [d] (.str q)) with
    | some u =>
      obtain ⟨q, _, hlk⟩ := findSome?_eq_some_ex hs
      obtain ⟨e, he, rfl⟩ := pyDictLookup_mem hlk
      simp at he
      subst he
      rfl
    | none => rfl

theorem findSome?_isSome_of_mem {α β} {f : α → Option β} {l : List α} {a : α}
    (ha : a ∈ l) (h : (f a).isSome = true) : (l.findSome? f).isSome = true := by
  induction l with
  | nil => simp at ha
  | cons x xs ih =>
    rw [List.findSome?_cons]
    cases hfx : f x with
    | some v => rfl
    | none =>
      rcases List.mem_cons.mp ha with h1 | h2
      · subst h1
        rw [hfx] at h
        simp at h
      · exact ih h2

theorem tierIdx_mem {p : String} {j : Nat} (h : tierIdx p = some j) : p ∈ QUALITY_TIERS := by
  rcases tierIdx_cases h with ⟨rfl, _⟩ | ⟨rfl, _⟩ | ⟨rfl, _⟩ | ⟨rfl, _⟩ | ⟨rfl, _⟩ <;> decide

theorem tierLE_refl {p : String} {j : Nat} (h : tierIdx p = some j) : tierLE p p = true := by
  unfold tierLE
  rw [h]
  simp

theorem mem_chain_tier {p q : String} {j : Nat} (hp : tierIdx p = some j)
    (hq : q ∈ preferenceOrder p) : q ∈ QUALITY_TIERS ∧ tierLE q p = true := by
  unfold preferenceOrder at hq
  rw [pyIndexOf_tiers, hp] at hq
  rcases List.mem_cons.mp hq with rfl | htail
  · exact ⟨tierIdx_mem hp, tierLE_refl hp⟩
  · exact tail_mem_tier hp htail

theorem tierLE_known_right {t p : String} (h : tierLE t p = true) :
    ∃ j, tierIdx p = some j := by
  unfold tierLE at h
  cases hi : tierIdx t with
  | none => rw [hi] at h; simp at h
  | some i =>
    cases hj : tierIdx p with
    | none => rw [hi, hj] at h; simp at h
    | some j => exact ⟨j, rfl⟩

/-- C1 (amended).  Writing `pick l q` for `_pick_best_url` on the embedded
list: the empty list yields `""`; when some known tier at or below the
requested label is present, the returned URL is the stored URL of such a
tier (never of a known tier strictly above the request); when the
requested label itself is absent and no known tier at or below it is
present, the URL of the strictly-highest present known tier is returned;
and when additionally no known tier is present at all, the URL of the
last list element is returned.  (The two latter clauses require the
requested label to be absent: the preference chain starts with the label
itself, so a present unknown label wins first — the correction forced by
`pick_best_url_last_resort_counterexample`.) -/
theorem pick_best_url_quality_policy (l : List (String × String)) (preferred t0 : String) :
    (l = [] → _pick_best_url (l.map sentry) preferred = some (.str ""))
    ∧ (hasKnownLE l preferred = true →
        ∃ t, t ∈ QUALITY_TIERS ∧ tierLE t preferred = true ∧
          _pick_best_url (l.map sentry) preferred = (lookupLast l t).map Json.str)
    ∧ (keyPresent l preferred = false → hasKnownLE l preferred = false →
        QUALITY_TIERS.reverse.find? (fun t => keyPresent l t) = some t0 →
        _pick_best_url (l.map sentry) preferred = (lookupLast l t0).map Json.str)
    ∧ (l ≠ [] → keyPresent l preferred = false →
        (∀ t ∈ QUALITY_TIERS, keyPresent l t = false) →
        _pick_best_url (l.map sentry) preferred = l.getLast?.map (fun p => Json.str p.2)) := by
  refine ⟨?_, ?_, ?_, ?_⟩
  · intro h
    subst h
    rfl
  · intro hk
    obtain ⟨t1, ht1mem, ht1⟩ := List.any_eq_true.mp hk
    have ht1b : tierLE t1 preferred = true ∧ keyPresent l t1 = true := by
      simpa using ht1
    have hle1 : tierLE t1 preferred = true := ht1b.1
    have hkp1 : keyPresent l t1 = true := ht1b.2
    have hne : l ≠ [] := keyPresent_ne_nil hkp1
    have hmem1 : t1 ∈ preferenceOrder preferred := mem_preferenceOrder_of_le hle1
    have hl1 : (pyDictLookup (l.map sentry) (.str t1)).isSome = true := by
      rw [pyDictLookup_sentry]
      have h2 := lookupLast_isSome l t1
      rw [hkp1] at h2
      cases h3 : lookupLast l t1 with
      | none => rw [h3] at h2; simp at h2
      | some u => rfl
    have hchain :
        ((preferenceOrder preferred).findSome?
          (fun q => pyDictLookup (l.map sentry) (.str q))).isSome = true :=
      findSome?_isSome_of_mem hmem1 hl1
    obtain ⟨v, hv⟩ := Option.isSome_iff_exists.mp hchain
    obtain ⟨q, hqmem, hlkq⟩ := findSome?_eq_some_ex hv
    obtain ⟨j, hj⟩ := tierLE_known_right hle1
    obtain ⟨hqtier, hqle⟩ := mem_chain_tier hj hqmem
    refine ⟨q, hqtier, hqle, ?_⟩
    have hpick : _pick_best_url (l.map sentry) preferred = some v := by
      unfold _pick_best_url
      rw [if_neg (by simp [List.isEmpty_iff, hne]),
          if_neg (by simp [sentry_all_hashable]), hv]
    rw [hpick, ← hlkq, pyDictLookup_sentry]
  · intro hkp hk hfind
    have hkpt0 : keyPresent l t0 = true := by
      have h2 := List.find?_some hfind
      simpa using h2
    have hne : l ≠ [] := keyPresent_ne_nil hkpt0
    unfold _pick_best_url
    rw [if_neg (by simp [List.isEmpty_iff, hne]),
        if_neg (by simp [sentry_all_hashable]),
        findSome?_eq_none_of (chain_lookup_none hkp hk),
        scan_eq_find?, hfind]
    have hb : (some t0).bind (fun t => Option.map Json.str (lookupLast l t)) =
        Option.map Json.str (lookupLast l t0) := rfl
    rw [hb]
    have h2 := lookupLast_isSome l t0
    rw [hkpt0] at h2
    cases h3 : lookupLast l t0 with
    | none => rw [h3] at h2; simp at h2
    | some u => rfl
  · intro hne hkp habs
    have hk : hasKnownLE l preferred = false := by
      rw [hasKnownLE, List.any_eq_false]
      intro t ht
      rw [habs t ht]
      simp
    unfold _pick_best_url
    rw [if_neg (by simp [List.isEmpty_iff, hne]),
        if_neg (by simp [sentry_all_hashable]),
        findSome?_eq_none_of (chain_lookup_none hkp hk),
        scan_eq_find?]
    have hfindnone : QUALITY_TIERS.reverse.find? (fun t => keyPresent l t) = none := by
      rw [List.find?_eq_none]
      intro t ht
      rw [habs t (List.mem_reverse.mp ht)]
      simp
    rw [hfindnone, List.getLast?_map]
    cases hg : l.getLast? with
    | none =>
      rw [List.getLast?_eq_none_iff] at hg
      exact absurd hg hne
    | some p => rfl

/-- C1 counterexample: with the unknown label "flac" requested and present,
the list `[("flac","u"), ("mp3","w")]` contains no known tier at all, so the
claim as stated demands the URL of the last list element (`"w"`); the code
returns `"u"` because the preference chain begins with the requested label
itself. -/
theorem pick_best_url_last_resort_counterexample :
    (∀ t ∈ QUALITY_TIERS, keyPresent [("flac", "u"), ("mp3", "w")] t = false)
    ∧ _pick_best_url ([("flac", "u"), ("mp3", "w")].map sentry) "flac" = some (.str "u")
    ∧ ([("flac", "u"), ("mp3", "w")] : List (String × String)).getLast?.map
        (fun p => Json.str p.2) = some (.str "w")
    ∧ "u" ≠ "w" :=
  ⟨by decide, rfl, rfl, by decide⟩

/-- Witness for the quality-policy theorem: requesting "96kbps" from a list
holding only the higher tiers 160kbps and 320kbps returns the
strictly-highest present known tier, 320kbps. -/
theorem pick_best_url_quality_policy_witness :
    _pick_best_url ([("160kbps", "c"), ("320kbps", "b")].map sentry) "96kbps" =
      some (Json.str "b") :=
  ((pick_best_url_quality_policy [("160kbps", "c"), ("320kbps", "b")] "96kbps" "320kbps").2.2.1
    (by decide) (by decide) (by decide)).trans (by rfl)

/-- C8: whenever the requested quality label itself occurs in the list —
known tier or not — `_pick_best_url` returns the URL stored for that label
(the last occurrence, per Python dict semantics), because the preference
chain always begins with the requested label. -/
theorem pick_best_url_requested_label (l : List (String × String)) (preferred : String)
    (h : keyPresent l preferred = true) :
    ∃ p, p ∈ l ∧ p.1 = preferred ∧
      _pick_best_url (l.map sentry) preferred = some (.str p.2) := by
  have hne := keyPresent_ne_nil h
  have h2 := lookupLast_isSome l preferred
  rw [h] at h2
  obtain ⟨u, hu⟩ := Option.isSome_iff_exists.mp h2
  obtain ⟨p, hp, hp1, hp2⟩ := lookupLast_mem hu
  refine ⟨p, hp, hp1, ?_⟩
  obtain ⟨tail, htail⟩ := preferenceOrder_head preferred
  have hhead : pyDictLookup (l.map sentry) (.str preferred) = some (Json.str u) := by
    rw [pyDictLookup_sentry, hu]
    rfl
  have hchain : List.findSome? (fun q => pyDictLookup (l.map sentry) (Json.str q))
      (preferred :: tail) = some (Json.str u) := findSome?_cons_of_some hhead
  unfold _pick_best_url
  rw [if_neg (by simp [List.isEmpty_iff, hne]),
      if_neg (by simp [sentry_all_hashable]), htail, hchain, hp2]

/-- Witness: the unknown label "flac" is present, so its URL is returned. -/
theorem pick_best_url_requested_label_witness :
    _pick_best_url ([("flac", "u1")].map sentry) "flac" = some (Json.str "u1") := by
  obtain ⟨p, hp, h1, h2⟩ := pick_best_url_requested_label [("flac", "u1")] "flac" (by decide)
  have hp2 : p = ("flac", "u1") := by simpa using hp
  subst hp2
  exact h2

theorem dl_entries_truthy {song : Dict} {e : DlEntry}
    (he : e ∈ _extract_download_urls song) :
    e.quality.truthy = true ∧ e.url.truthy = true := by
  unfold _extract_download_urls at he
  split at he
  · obtain ⟨a, _, hfa⟩ := List.mem_filterMap.mp he
    split at hfa
    · dsimp only at hfa
      split at hfa
      · next hcond =>
        obtain ⟨h1, h2⟩ : _ ∧ _ := by simpa using hcond
        cases Option.some.inj hfa
        exact ⟨h1, h2⟩
      · simp at hfa
    · simp at hfa
  · simp at he

theorem normalize_song_inv {unescape : String → String} {d : Dict} {s : Song}
    (h : normalize_song unescape d = some s) :
    s.download_urls = _extract_download_urls d
    ∧ _pick_best_url s.download_urls "320kbps" = some s.best_url := by
  unfold normalize_song at h
  dsimp only at h
  cases ha : _extract_artist unescape d with
  | none => rw [ha] at h; simp at h
  | some artist =>
    rw [ha] at h
    dsimp only at h
    cases hp : _pick_best_url (_extract_download_urls d) "320kbps" with
    | none => rw [hp] at h; simp at h
    | some best =>
      rw [hp] at h
      dsimp only at h
      cases Option.some.inj h
      exact ⟨rfl, hp⟩

theorem normalize_ytdlp_inv {info : Dict} {source : String} {s : Song}
    (h : normalize_ytdlp_result info source = some s) :
    ∃ audio abr,
      _extract_audio_url info = some audio
      ∧ pyInt (pyOr (pyGet info "abr") (.num 0)) = some abr
      ∧ s.best_url = audio
      ∧ s.download_urls = (if audio.truthy then
          [⟨.str (if abr != 0 then toString abr ++ "kbps" else "320kbps"), audio⟩]
        else []) := by
  unfold normalize_ytdlp_result at h
  dsimp only at h
  cases hd : pyInt (pyOr (pyGet info "duration") (.num 0)) with
  | none => rw [hd] at h; simp at h
  | some duration =>
    rw [hd] at h
    dsimp only at h
    cases ht : _ytdlp_thumbnail info with
    | none => rw [ht] at h; simp at h
    | some thumbnail =>
      rw [ht] at h
      dsimp only at h
      cases hau : _extract_audio_url info with
      | none => rw [hau] at h; simp at h
      | some audio =>
        rw [hau] at h
        dsimp only at h
        cases hab : pyInt (pyOr (pyGet info "abr") (.num 0)) with
        | none => rw [hab] at h; simp at h
        | some abr =>
          rw [hab] at h
          dsimp only at h
          cases Option.some.inj h
          exact ⟨audio, abr, rfl, rfl, rfl, rfl⟩

/-- C2 (amended): for every song either normaliser actually produces,
`best_url` is truthy exactly when `download_urls` is non-empty, and
`best_url` equals the value `_pick_best_url` selects for the default
preference "320kbps" — unconditionally for `normalize_song` (which
computes `best_url` by that very call), and for `normalize_ytdlp_result`
whenever `download_urls` is non-empty.  (In the empty case the media-path
normaliser stores the falsy raw value `info.get("url", "")` itself, which
need not be the empty string the selector returns — the correction the
counterexample forces.) -/
theorem normalizer_best_url_invariant (unescape : String → String) (d : Dict)
    (source : String) (s : Song) :
    (normalize_song unescape d = some s →
      s.best_url.truthy = !s.download_urls.isEmpty
      ∧ _pick_best_url s.download_urls "320kbps" = some s.best_url)
    ∧ (normalize_ytdlp_result d source = some s →
      s.best_url.truthy = !s.download_urls.isEmpty
      ∧ (s.download_urls ≠ [] →
        _pick_best_url s.download_urls "320kbps" = some s.best_url)) := by
  constructor
  · intro h
    obtain ⟨hdl, hb⟩ := normalize_song_inv h
    refine ⟨?_, hb⟩
    cases hdls : s.download_urls with
    | nil =>
      rw [hdls] at hb
      have hb2 : some (Json.str "") = some s.best_url := by
        rw [← hb]
        rfl
      rw [← Option.some.inj hb2]
      rfl
    | cons e es =>
      have hne : s.download_urls ≠ [] := by rw [hdls]; simp
      obtain ⟨d0, hd0, hurl⟩ := pick_mem hb hne
      have hd0e : d0 ∈ _extract_download_urls d := by rw [← hdl]; exact hd0
      obtain ⟨_, hu⟩ := dl_entries_truthy hd0e
      rw [hurl, hu]
      rfl
  · intro h
    obtain ⟨audio, abr, hau, hab, hbest, hdl⟩ := normalize_ytdlp_inv h
    by_cases htr : audio.truthy = true
    · have hdl2 : s.download_urls =
          [⟨.str (if abr != 0 then toString abr ++ "kbps" else "320kbps"), audio⟩] := by
        rw [hdl, if_pos htr]
      constructor
      · rw [hbest, htr, hdl2]
        rfl
      · intro _
        have hps := pick_singleton
          ⟨.str (if abr != 0 then toString abr ++ "kbps" else "320kbps"), audio⟩
          "320kbps" rfl
        rw [hdl2, hps, hbest]
    · have hf : audio.truthy = false := by simpa using htr
      have hdl2 : s.download_urls = [] := by
        rw [hdl, if_neg (by simp [hf])]
      constructor
      · rw [hbest, hf, hdl2]
        rfl
      · intro hne
        exact absurd hdl2 hne

/-- Witness: both normalisers on concrete records, with the invariant
discharged through the theorem. -/
theorem normalizer_best_url_invariant_witness :
    normalize_song (fun x => x) dW = some songW
    ∧ songW.best_url.truthy = !songW.download_urls.isEmpty
    ∧ _pick_best_url songW.download_urls "320kbps" = some songW.best_url
    ∧ normalize_ytdlp_result infoW "youtube" = some songYW
    ∧ _pick_best_url songYW.download_urls "320kbps" = some songYW.best_url :=
  ⟨rfl,
   ((normalizer_best_url_invariant (fun x => x) dW "youtube" songW).1 rfl).1,
   ((normalizer_best_url_invariant (fun x => x) dW "youtube" songW).1 rfl).2,
   rfl,
   ((normalizer_best_url_invariant (fun x => x) infoW "youtube" songYW).2 rfl).2
     (List.cons_ne_nil _ _)⟩

/-- C2 counterexample: on the yt-dlp record `\x7b"url": None\x7d` the
produced song has `best_url = None` and empty `download_urls`, while the
Quality Selector applied to the empty list returns the empty string — so
`best_url` differs from the selector result, refuting the claimed equality
for `normalize_ytdlp_result`. -/
theorem normalizer_best_url_counterexample :
    (normalize_ytdlp_result [("url", Json.null)] "youtube").map (fun s => s.best_url)
      = some Json.null
    ∧ (normalize_ytdlp_result [("url", Json.null)] "youtube").map
        (fun s => _pick_best_url s.download_urls "320kbps") = some (some (Json.str ""))
    ∧ Json.null ≠ Json.str "" :=
  ⟨rfl, rfl, fun h => Json.noConfusion h⟩

/-- C6 (amended): `normalize_song` is a pure total function — malformed
input degrades to default field values — on exactly those mappings where
(a) artist extraction does not reach a `", ".join` over a truthy
non-string name and (b) no kept download entry carries an unhashable
(list- or dict-valued) quality; on the remaining inputs the Python code
raises `TypeError`, so the normalisation succeeds precisely when
`_extract_artist` succeeds and every kept quality is hashable. -/
theorem normalize_song_total_iff (unescape : String → String) (d : Dict) :
    (normalize_song unescape d).isSome =
      ((_extract_artist unescape d).isSome
        && (_extract_download_urls d).all (fun e => e.quality.hashable)) := by
  unfold normalize_song
  dsimp only
  cases ha : _extract_artist unescape d with
  | none => rfl
  | some artist =>
    have hp := pick_isSome (_extract_download_urls d) "320kbps"
    cases hpk : _pick_best_url (_extract_download_urls d) "320kbps" with
    | none =>
      rw [hpk] at hp
      simp only [Option.isSome_none, Option.isSome_some, Bool.true_and]
      exact hp
    | some best =>
      rw [hpk] at hp
      simp only [Option.isSome_none, Option.isSome_some, Bool.true_and]
      exact hp

/-- C6 counterexample: two JSON mappings on which `normalize_song` raises
`TypeError` instead of degrading to defaults — a truthy integer artist
name reaching the string join, and a list-valued download quality reaching
the dict comprehension. -/
theorem normalize_song_raises_counterexample :
    normalize_song (fun x => x)
      [("primaryArtists", Json.arr [Json.obj [("name", Json.num 5)]])] = none
    ∧ normalize_song (fun x => x)
      [("downloadUrl", Json.arr
          [Json.obj [("quality", Json.arr [Json.str "x"]), ("url", Json.str "b")]])] = none :=
  ⟨rfl, rfl⟩

/-- C3: the search iterates the configured mirrors in order; a timeout, an
exception, or a non-200 status skips the mirror; the first mirror producing
a non-empty normalised list is returned at once, independent of the later
mirrors; and when every mirror fails or yields no results — in particular
when all four configured mirrors answer HTTP 500 — the result is the
no-result value `none`, never an exception (the model is a total function
into `Option`). -/
theorem search_mirror_fallback (unescape : String → String) (m : MirrorOutcome)
    (rest : List MirrorOutcome) (status : Int) (body : Json) (r : List Song) :
    tryMirror unescape .timeout = none
    ∧ tryMirror unescape .exn = none
    ∧ (status ≠ 200 → tryMirror unescape (.response status body) = none)
    ∧ MusicAPI.search unescape [] = none
    ∧ (tryMirror unescape m = none →
        MusicAPI.search unescape (m :: rest) = MusicAPI.search unescape rest)
    ∧ (tryMirror unescape m = some r →
        MusicAPI.search unescape (m :: rest) = some r)
    ∧ MusicAPI.search unescape
        (List.replicate MUSIC_APIS.length (.response 500 body)) = none
    ∧ (∀ outcomes : List MirrorOutcome,
        (∀ o ∈ outcomes, tryMirror unescape o = none) →
        MusicAPI.search unescape outcomes = none) := by
  have h500 : tryMirror unescape (.response 500 body) = none := by
    simp only [tryMirror]
    rw [if_pos (by decide)]
  refine ⟨rfl, rfl, ?_, rfl, ?_, ?_, ?_, ?_⟩
  · intro hs
    have hb : (status != 200) = true := by simpa using hs
    simp only [tryMirror]
    rw [if_pos hb]
  · intro hm
    simp [MusicAPI.search, hm]
  · intro hm
    simp [MusicAPI.search, hm]
  · simp [MUSIC_APIS, List.replicate, MusicAPI.search, h500]
  · intro outcomes hall
    induction outcomes with
    | nil => rfl
    | cons o0 rest0 ih =>
      unfold MusicAPI.search
      rw [hall o0 (List.mem_cons_self o0 rest0)]
      exact ih (fun o ho => hall o (List.mem_cons_of_mem o0 ho))

/-- Witness: a 500 response is skipped, and four mirrors all answering 500
produce the no-result value. -/
theorem search_mirror_fallback_witness :
    tryMirror (fun x => x) (.response 500 Json.null) = none
    ∧ MusicAPI.search (fun x => x)
        (List.replicate MUSIC_APIS.length (.response 500 Json.null)) = none :=
  ⟨(search_mirror_fallback (fun x => x) .timeout [] 500 Json.null []).2.2.1 (by decide),
   (search_mirror_fallback (fun x => x) .timeout [] 500 Json.null []).2.2.2.2.2.2.1⟩

/-- C9: the search result is never the empty list — a mirror whose
unwrapped or normalised result list is empty is treated like a failed
mirror — so the result is either `none` or a non-empty list. -/
theorem search_never_empty (unescape : String → String) (outcomes : List MirrorOutcome) :
    Option.all (fun l => !l.isEmpty) (MusicAPI.search unescape outcomes) = true
    ∧ ∀ m, Option.all (fun l => !l.isEmpty) (tryMirror unescape m) = true := by
  have hm : ∀ m, Option.all (fun l => !l.isEmpty) (tryMirror unescape m) = true := by
    intro m
    unfold tryMirror
    cases m with
    | timeout => rfl
    | exn => rfl
    | response status body =>
      simp only [tryMirror]
      by_cases hs : (status != 200) = true
      · rw [if_pos hs]
        rfl
      · rw [if_neg hs]
        split
        · split
          · rfl
          · next ns hns =>
            by_cases hne : ns.isEmpty = true
            · rw [if_pos hne]
              rfl
            · rw [if_neg hne]
              have hne2 : ns.isEmpty = false := by simpa using hne
              simp [Option.all, hne2]
        · rfl
  refine ⟨?_, hm⟩
  induction outcomes with
  | nil => rfl
  | cons m0 rest ih =>
    unfold MusicAPI.search
    cases ht : tryMirror unescape m0 with
    | none => exact ih
    | some r =>
      have h2 := hm m0
      rw [ht] at h2
      exact h2

theorem tryMirrorSong_id {unescape : String → String} {m : MirrorOutcome} {s : Song}
    (h : tryMirrorSong unescape m = some s) : s.id.truthy = true := by
  unfold tryMirrorSong at h
  cases m with
  | timeout => simp at h
  | exn => simp at h
  | response status body =>
    dsimp only at h
    split at h
    · simp at h
    · split at h
      · split at h
        · simp at h
        · split at h
          · next htr =>
            cases Option.some.inj h
            exact htr
          · simp at h
      · simp at h

/-- C10: every song `get_song_by_id` returns carries a truthy `id` — a
mirror whose unwrapped candidate normalises to a song with a falsy or
missing id is discarded (`tryMirrorSong` yields `none`) and the next
mirror in the configured order is tried. -/
theorem get_song_by_id_truthy_id (unescape : String → String)
    (outcomes : List MirrorOutcome) (s : Song) (m : MirrorOutcome)
    (rest : List MirrorOutcome) :
    (MusicAPI.get_song_by_id unescape outcomes = some s → s.id.truthy = true)
    ∧ (tryMirrorSong unescape m = none →
        MusicAPI.get_song_by_id unescape (m :: rest) =
          MusicAPI.get_song_by_id unescape rest) := by
  constructor
  · induction outcomes with
    | nil =>
      intro h
      simp [MusicAPI.get_song_by_id] at h
    | cons m0 rest0 ih =>
      intro h
      unfold MusicAPI.get_song_by_id at h
      cases ht : tryMirrorSong unescape m0 with
      | none =>
        rw [ht] at h
        exact ih h
      | some s0 =>
        rw [ht] at h
        cases Option.some.inj h
        exact tryMirrorSong_id ht
  · intro hm
    simp [MusicAPI.get_song_by_id, hm]

/-- Witness: a single mirror answering a valid song record yields a song
whose id is truthy. -/
theorem get_song_by_id_truthy_id_witness :
    MusicAPI.get_song_by_id (fun x => x) [outW] = some songXW
    ∧ songXW.id.truthy = true :=
  ⟨rfl, (get_song_by_id_truthy_id (fun x => x) [outW] songXW .timeout []).1 rfl⟩

/-- C4: `ensure_download_urls` leaves a song with both a non-empty
`download_urls` and a truthy `best_url` untouched with zero upstream
calls, likewise a song without a truthy id; in every case all fields other
than `download_urls`/`best_url` are unchanged; when the fetch fails, or
succeeds without download URLs, the song is returned unchanged; and only a
successful fetch carrying download URLs overwrites exactly those two
fields.  Totality of the model shows the function never raises. -/
theorem ensure_download_urls_spec (fetch : Json → Option Song) (song full : Song) :
    (song.download_urls.isEmpty = false → song.best_url.truthy = true →
      MusicAPI.ensure_download_urls fetch song = (song, 0))
    ∧ (song.id.truthy = false →
      MusicAPI.ensure_download_urls fetch song = (song, 0))
    ∧ ((MusicAPI.ensure_download_urls fetch song).1.id = song.id
      ∧ (MusicAPI.ensure_download_urls fetch song).1.name = song.name
      ∧ (MusicAPI.ensure_download_urls fetch song).1.artist = song.artist
      ∧ (MusicAPI.ensure_download_urls fetch song).1.album = song.album
      ∧ (MusicAPI.ensure_download_urls fetch song).1.year = song.year
      ∧ (MusicAPI.ensure_download_urls fetch song).1.duration = song.duration
      ∧ (MusicAPI.ensure_download_urls fetch song).1.duration_formatted = song.duration_formatted
      ∧ (MusicAPI.ensure_download_urls fetch song).1.language = song.language
      ∧ (MusicAPI.ensure_download_urls fetch song).1.has_lyrics = song.has_lyrics
      ∧ (MusicAPI.ensure_download_urls fetch song).1.image = song.image
      ∧ (MusicAPI.ensure_download_urls fetch song).1.source = song.source
      ∧ (MusicAPI.ensure_download_urls fetch song).1.webpage_url = song.webpage_url)
    ∧ (fetch song.id = none → (MusicAPI.ensure_download_urls fetch song).1 = song)
    ∧ (fetch song.id = some full → full.download_urls.isEmpty = true →
      (MusicAPI.ensure_download_urls fetch song).1 = song)
    ∧ ((song.download_urls.isEmpty = true ∨ song.best_url.truthy = false) →
      song.id.truthy = true → fetch song.id = some full →
      full.download_urls.isEmpty = false →
      MusicAPI.ensure_download_urls fetch song =
        ({ song with download_urls := full.download_urls,
                     best_url := full.best_url }, 1)) := by
  unfold MusicAPI.ensure_download_urls
  by_cases h1 : (!song.download_urls.isEmpty && song.best_url.truthy) = true
  · rw [if_pos h1]
    refine ⟨fun _ _ => rfl, fun _ => rfl,
      ⟨rfl, rfl, rfl, rfl, rfl, rfl, rfl, rfl, rfl, rfl, rfl, rfl⟩,
      fun _ => rfl, fun _ _ => rfl, ?_⟩
    intro hcase _ _ _
    rcases hcase with hc | hc
    · simp [hc] at h1
    · simp [hc] at h1
  · rw [if_neg h1]
    have hcontra : song.download_urls.isEmpty = false →
        song.best_url.truthy = true → False := by
      intro hne htr
      exact h1 (by simp [hne, htr])
    by_cases h2 : (!song.id.truthy) = true
    · rw [if_pos h2]
      have hid0 : song.id.truthy = false := by simpa using h2
      refine ⟨fun hne htr => (hcontra hne htr).elim, fun _ => rfl,
        ⟨rfl, rfl, rfl, rfl, rfl, rfl, rfl, rfl, rfl, rfl, rfl, rfl⟩,
        fun _ => rfl, fun _ _ => rfl, ?_⟩
      intro _ hid _ _
      exact absurd hid (by simp [hid0])
    · rw [if_neg h2]
      have hid1 : song.id.truthy = true := by simpa using h2
      cases hf : fetch song.id with
      | none =>
        exact ⟨fun hne htr => (hcontra hne htr).elim,
          fun hid => absurd hid1 (by simp [hid]),
          ⟨rfl, rfl, rfl, rfl, rfl, rfl, rfl, rfl, rfl, rfl, rfl, rfl⟩,
          fun _ => rfl,
          fun hsome _ => Option.noConfusion hsome,
          fun _ _ hsome _ => Option.noConfusion hsome⟩
      | some full0 =>
        dsimp only
        by_cases h3 : (!full0.download_urls.isEmpty) = true
        · rw [if_pos h3]
          have hfne : full0.download_urls.isEmpty = false := by simpa using h3
          refine ⟨fun hne htr => (hcontra hne htr).elim,
            fun hid => absurd hid1 (by simp [hid]),
            ⟨rfl, rfl, rfl, rfl, rfl, rfl, rfl, rfl, rfl, rfl, rfl, rfl⟩,
            fun habs => Option.noConfusion habs, ?_, ?_⟩
          · intro hsome hempty
            cases Option.some.inj hsome
            rw [hfne] at hempty
            exact Bool.noConfusion hempty
          · intro _ _ hsome _
            cases Option.some.inj hsome
            rfl
        · rw [if_neg h3]
          have hfe : full0.download_urls.isEmpty = true := by simpa using h3
          refine ⟨fun hne htr => (hcontra hne htr).elim,
            fun hid => absurd hid1 (by simp [hid]),
            ⟨rfl, rfl, rfl, rfl, rfl, rfl, rfl, rfl, rfl, rfl, rfl, rfl⟩,
            fun habs => Option.noConfusion habs,
            fun _ _ => rfl, ?_⟩
          intro _ _ hsome hne2
          cases Option.some.inj hsome
          rw [hfe] at hne2
          exact Bool.noConfusion hne2

/-- Witness: the enrichment overwrites exactly the two URL fields on a
successful fetch and leaves the song as-is on a failed fetch. -/
theorem ensure_download_urls_spec_witness :
    MusicAPI.ensure_download_urls (fun _ => some fullW) songEW =
      ({ songEW with download_urls := fullW.download_urls,
                     best_url := fullW.best_url }, 1)
    ∧ (MusicAPI.ensure_download_urls (fun _ => none) songEW).1 = songEW :=
  ⟨(ensure_download_urls_spec (fun _ => some fullW) songEW fullW).2.2.2.2.2
      (Or.inl rfl) rfl rfl rfl,
   (ensure_download_urls_spec (fun _ => none) songEW fullW).2.2.2.1 rfl⟩

/-- C5: `refresh_song` is a no-op with zero upstream calls for any song
whose `webpage_url` key is absent or falsy; with a truthy `webpage_url` it
consults the re-extraction exactly once and overwrites `best_url` and
`download_urls` in place only when the extraction succeeds with a truthy
resolved URL; all other fields are untouched in every case. -/
theorem refresh_song_spec (extract : Json → Option Song) (song refreshed : Song) (w : Json) :
    (song.webpage_url = none → refresh_song extract song = (song, 0))
    ∧ (song.webpage_url = some w → w.truthy = false →
        refresh_song extract song = (song, 0))
    ∧ ((refresh_song extract song).1.id = song.id
      ∧ (refresh_song extract song).1.name = song.name
      ∧ (refresh_song extract song).1.artist = song.artist
      ∧ (refresh_song extract song).1.album = song.album
      ∧ (refresh_song extract song).1.year = song.year
      ∧ (refresh_song extract song).1.duration = song.duration
      ∧ (refresh_song extract song).1.duration_formatted = song.duration_formatted
      ∧ (refresh_song extract song).1.language = song.language
      ∧ (refresh_song extract song).1.has_lyrics = song.has_lyrics
      ∧ (refresh_song extract song).1.image = song.image
      ∧ (refresh_song extract song).1.source = song.source
      ∧ (refresh_song extract song).1.webpage_url = song.webpage_url)
    ∧ (song.webpage_url = some w → w.truthy = true → extract w = none →
        refresh_song extract song = (song, 1))
    ∧ (song.webpage_url = some w → w.truthy = true → extract w = some refreshed →
        refreshed.best_url.truthy = false → refresh_song extract song = (song, 1))
    ∧ (song.webpage_url = some w → w.truthy = true → extract w = some refreshed →
        refreshed.best_url.truthy = true →
        refresh_song extract song =
          ({ song with best_url := refreshed.best_url,
                       download_urls := refreshed.download_urls }, 1)) := by
  unfold refresh_song
  cases hw : song.webpage_url with
  | none =>
    exact ⟨fun _ => rfl, fun habs _ => Option.noConfusion habs,
      ⟨rfl, rfl, rfl, rfl, rfl, rfl, rfl, rfl, rfl, rfl, rfl, hw⟩,
      fun habs _ _ => Option.noConfusion habs,
      fun habs _ _ _ => Option.noConfusion habs,
      fun habs _ _ _ => Option.noConfusion habs⟩
  | some w0 =>
    dsimp only
    by_cases hwt : (!w0.truthy) = true
    · rw [if_pos hwt]
      have hw0 : w0.truthy = false := by simpa using hwt
      refine ⟨fun habs => Option.noConfusion habs, fun _ _ => rfl,
        ⟨rfl, rfl, rfl, rfl, rfl, rfl, rfl, rfl, rfl, rfl, rfl, hw⟩, ?_, ?_, ?_⟩
      · intro hw2 htr _
        cases Option.some.inj hw2
        exact absurd htr (by simp [hw0])
      · intro hw2 htr _ _
        cases Option.some.inj hw2
        exact absurd htr (by simp [hw0])
      · intro hw2 htr _ _
        cases Option.some.inj hw2
        exact absurd htr (by simp [hw0])
    · rw [if_neg hwt]
      cases he : extract w0 with
      | none =>
        refine ⟨fun habs => Option.noConfusion habs, ?_,
          ⟨rfl, rfl, rfl, rfl, rfl, rfl, rfl, rfl, rfl, rfl, rfl, hw⟩, ?_, ?_, ?_⟩
        · intro hw2 hfalse
          cases Option.some.inj hw2
          exact absurd hfalse (by simpa using hwt)
        · intro hw2 _ _
          cases Option.some.inj hw2
          rfl
        · intro hw2 _ hext _
          cases Option.some.inj hw2
          exact Option.noConfusion (he.symm.trans hext)
        · intro hw2 _ hext _
          cases Option.some.inj hw2
          exact Option.noConfusion (he.symm.trans hext)
      | some r0 =>
        dsimp only
        by_cases hbt : r0.best_url.truthy = true
        · rw [if_pos hbt]
          refine ⟨fun habs => Option.noConfusion habs, ?_,
            ⟨rfl, rfl, rfl, rfl, rfl, rfl, rfl, rfl, rfl, rfl, rfl, rfl⟩, ?_, ?_, ?_⟩
          · intro hw2 hfalse
            cases Option.some.inj hw2
            exact absurd hfalse (by simpa using hwt)
          · intro hw2 _ hext
            cases Option.some.inj hw2
            exact Option.noConfusion (he.symm.trans hext)
          · intro hw2 _ hext hrf
            cases Option.some.inj hw2
            cases Option.some.inj (he.symm.trans hext)
            exact absurd hbt (by simp [hrf])
          · intro hw2 _ hext _
            cases Option.some.inj hw2
            cases Option.some.inj (he.symm.trans hext)
            rfl
        · rw [if_neg hbt]
          refine ⟨fun habs => Option.noConfusion habs, ?_,
            ⟨rfl, rfl, rfl, rfl, rfl, rfl, rfl, rfl, rfl, rfl, rfl, hw⟩, ?_, ?_, ?_⟩
          · intro hw2 hfalse
            cases Option.some.inj hw2
            exact absurd hfalse (by simpa using hwt)
          · intro hw2 _ hext
            cases Option.some.inj hw2
            exact Option.noConfusion (he.symm.trans hext)
          · intro hw2 _ _ _
            cases Option.some.inj hw2
            rfl
          · intro hw2 _ hext htr
            cases Option.some.inj hw2
            cases Option.some.inj (he.symm.trans hext)
            exact absurd htr hbt

/-- Witness: a successful re-extraction overwrites exactly the two URL
fields; a song without `webpage_url` is returned unchanged with zero
upstream calls. -/
theorem refresh_song_spec_witness :
    refresh_song (fun _ => some refreshedW) songPW =
      ({ songPW with best_url := refreshedW.best_url,
                     download_urls := refreshedW.download_urls }, 1)
    ∧ refresh_song (fun _ => some refreshedW) songEW = (songEW, 0) :=
  ⟨(refresh_song_spec (fun _ => some refreshedW) songPW refreshedW
      (.str "https://yt/x")).2.2.2.2.2 rfl rfl rfl rfl,
   (refresh_song_spec (fun _ => some refreshedW) songEW refreshedW
      (.str "https://yt/x")).1 rfl⟩

/-- C7: for every choice of the four compiled URL patterns (abstracted as
Boolean search functions, identical in both functions) and every input,
`is_music_url` is true exactly when `resolve_url` dispatches to one of the
four provider-specific branches; whenever it is false, `resolve_url`
returns the no-result value without reaching any provider resolution
oracle. -/
theorem is_music_url_iff_resolve (sp de aa asg : String → Bool)
    (spR deR aaR asgR : String → Option String) (u : String) :
    is_music_url sp de aa asg u = (resolve_branch sp de aa asg u).isSome
    ∧ (is_music_url sp de aa asg u = false →
        resolve_url sp de aa asg spR deR aaR asgR u = none) := by
  have hiff : is_music_url sp de aa asg u = (resolve_branch sp de aa asg u).isSome := by
    unfold is_music_url resolve_branch
    by_cases h1 : sp u.trim <;> by_cases h2 : de u.trim <;>
      by_cases h3 : aa u.trim <;> by_cases h4 : asg u.trim <;>
      simp [h1, h2, h3, h4]
  refine ⟨hiff, ?_⟩
  intro h
  rw [hiff] at h
  unfold resolve_url
  cases hb : resolve_branch sp de aa asg u with
  | none => rfl
  | some b =>
    rw [hb] at h
    simp at h

/-- Witness: with patterns that match nothing, a non-music input is judged
non-music and resolution returns the no-result value. -/
theorem is_music_url_iff_resolve_witness :
    resolve_url (fun _ => false) (fun _ => false) (fun _ => false) (fun _ => false)
      (fun _ => none) (fun _ => none) (fun _ => none) (fun _ => none)
      "plain search text" = none :=
  (is_music_url_iff_resolve (fun _ => false) (fun _ => false) (fun _ => false)
    (fun _ => false) (fun _ => none) (fun _ => none) (fun _ => none) (fun _ => none)
    "plain search text").2 rfl
